import Mathlib

/-!
Shallow embedding of the `synapse` reactive-propagation core (`src/index.ts`,
final variant: the `Emitter` class with `EmitterOptions`/`replayCache`, plus
the release-contract strategies of `src/releasers.ts`) and proofs about it.

JS reference identity of subscribers and emitters is modelled by numeric
identities; the JS `Set` of subscriptions is modelled as an insertion-ordered
duplicate-free list; a thrown error is modelled with `Except`; closure state of
operators and releasers is modelled as explicit state records, and timer-based
behaviour with a virtual clock (`Nat` times).
-/

namespace Synapses

/-- JS `xs.slice(-n)` on an array (the tail of length at most `n`).
For `n = 0` JS `slice(-0)` is `slice(0)`, a copy of the whole array. -/
def sliceLast {α : Type} (n : Nat) (xs : List α) : List α :=
  if n = 0 then xs else xs.drop (xs.length - n)

/-- `Subscriber<T>` is a callback function or another `Emitter`; JS compares
subscribers by reference identity, modelled by the tag and a numeric id. -/
inductive Subscriber where
  | cb (id : Nat)
  | em (id : Nat)
deriving DecidableEq, Repr

/-- `Subscription<T>`: the immutable pair of the emitter (by identity) and the
subscriber, produced by `subscribe`. -/
structure Subscription where
  emitterId : Nat
  subscriber : Subscriber
deriving DecidableEq, Repr

/-- State of one `Emitter<T>` instance: its identity, the `subscriptions` set
(insertion-ordered, duplicate-free, as a JS `Set`), the `replayMax` option and
the `replayCache` array.  The `startCallback`/`stopCallback` options are
effect-only hooks not touched by any claim and are omitted. -/
structure Emitter (T : Type) where
  id : Nat
  subscriptions : List Subscriber
  replayMax : Int
  replayCache : List T
deriving DecidableEq, Repr

/-- `updateReplayCache`: trim the cache to the last `replayMax` entries, but
only when `replayMax > 0`. -/
def Emitter.updateReplayCache {T : Type} (e : Emitter T) : Emitter T :=
  if 0 < e.replayMax then
    { e with replayCache := sliceLast e.replayMax.toNat e.replayCache }
  else e

/-- `setOptions`: `Object.assign` merges only the keys present in the passed
object (`none` = key absent), then `updateReplayCache` runs. -/
def Emitter.setOptions {T : Type} (e : Emitter T) (replayMax? : Option Int) : Emitter T :=
  Emitter.updateReplayCache { e with replayMax := replayMax?.getD e.replayMax }

/-- `new Emitter(options)`: fields start as `replayMax: 0`, empty cache and
subscription set, then the constructor calls `setOptions(options)`. -/
def Emitter.new {T : Type} (id : Nat) (replayMax? : Option Int) : Emitter T :=
  Emitter.setOptions ⟨id, [], 0, []⟩ replayMax?

def circularSubscribeMsg : String :=
  "Circular Reference Error: passed Subscriber cannot be the same instance of Emitter"

def circularSubscribeToMsg : String :=
  "Circular Reference Error: passed Emitter cannot be the same instance of Subscriber"

/-- JS `Set.add`: append if not already a member. -/
def setAdd (xs : List Subscriber) (s : Subscriber) : List Subscriber :=
  if s ∈ xs then xs else xs ++ [s]

/-- `subscribe`: throws the circular-reference error when the subscriber is
this very emitter, otherwise adds it to the set and returns a `Subscription`.
The result carries the emitter state after the call. -/
def Emitter.subscribe {T : Type} (e : Emitter T) (s : Subscriber) :
    Emitter T × Except String Subscription :=
  if s = .em e.id then
    (e, .error circularSubscribeMsg)
  else
    ({ e with subscriptions := setAdd e.subscriptions s }, .ok ⟨e.id, s⟩)

/-- `subscribeAndReplay`: `subscribe`, then synchronously propagate every
cached value to the new subscriber, in cache order.  The third component is
the list of deliveries `(subscriber, data)` made during the call. -/
def Emitter.subscribeAndReplay {T : Type} (e : Emitter T) (s : Subscriber) :
    Emitter T × Except String Subscription × List (Subscriber × T) :=
  match e.subscribe s with
  | (e', .ok sub) => (e', .ok sub, e'.replayCache.map (fun d => (sub.subscriber, d)))
  | (e', .error msg) => (e', .error msg, [])

/-- `unsubscribe`: JS `Set.delete`, removal by identity. -/
def Emitter.unsubscribe {T : Type} (e : Emitter T) (s : Subscriber) : Emitter T :=
  { e with subscriptions := e.subscriptions.filter (fun x => x ≠ s) }

/-- `subscribed`: JS `Set.has`. -/
def Emitter.subscribed {T : Type} (e : Emitter T) (s : Subscriber) : Bool :=
  e.subscriptions.contains s

/-- `subscribeTo`: throws when the target emitter is this very instance,
otherwise `target.subscribe(this)`.  The returned emitter state is the
target's. -/
def Emitter.subscribeTo {T : Type} (e target : Emitter T) :
    Emitter T × Except String Subscription :=
  if target.id = e.id then
    (target, .error circularSubscribeToMsg)
  else
    target.subscribe (.em e.id)

/-- `Subscription.unsubscribe`: delegates to the emitter's `unsubscribe` with
the stored subscriber (the emitter's state is passed explicitly). -/
def Subscription.unsubscribe {T : Type} (sub : Subscription) (e : Emitter T) : Emitter T :=
  e.unsubscribe sub.subscriber

/-- `emit(data)` for an already-resolved value: push onto `replayCache`, trim
via `updateReplayCache`, then notify every current subscriber.  The second
component lists the `propagateEmit(sub, data)` calls, in subscription order. -/
def Emitter.emit {T : Type} (e : Emitter T) (v : T) : Emitter T × List (Subscriber × T) :=
  let e' := Emitter.updateReplayCache { e with replayCache := e.replayCache ++ [v] }
  (e', e'.subscriptions.map (fun s => (s, v)))

/-- `emitAll(dataList)`: emit each value in order, awaiting each emission
before the next; deliveries are concatenated in order. -/
def Emitter.emitAll {T : Type} (e : Emitter T) (vs : List T) :
    Emitter T × List (Subscriber × T) :=
  match vs with
  | [] => (e, [])
  | v :: rest =>
    let r1 := e.emit v
    let r2 := r1.1.emitAll rest
    (r2.1, r1.2 ++ r2.2)

/-- One notification pass of `emit`: every subscriber, in subscription order,
receives the value. -/
def notifyPass {T : Type} (subs : List Subscriber) (v : T) : List (Subscriber × T) :=
  subs.map (fun s => (s, v))

/-- Deliveries made by `emitAll(dataList)` before control returns to the
caller.  `emitAll` is a JS `async` function that runs `await this.emit(data)`
in a loop: for a non-promise value `emit`'s body executes synchronously, but
the `await` then suspends the loop, resuming it only in a later microtask.
Hence the synchronous portion is exactly the first value's notification
pass. -/
def emitAllSyncDeliveries {T : Type} (subs : List Subscriber) (vs : List T) :
    List (Subscriber × T) :=
  match vs with
  | [] => []
  | v :: _ => notifyPass subs v

/-! ### `timeoutReleaser` (from `src/releasers.ts`) driving `wait`

`timeoutReleaser(time)` keeps one closure variable `emitterTO` (the pending
timer, initially `null`).  On a consultation it arms a timer only when none is
pending, capturing the consulted data in the timer callback; when the timer
fires it resets `emitterTO` to `null` and calls `release(data)`.  The `wait`
operator's release-execution function emits the released data on the child
emitter.  Timers use a virtual clock: the releaser state is `none` (no pending
timer) or `some (fireTime, capturedData)`. -/

/-- One consultation of `timeoutReleaser(time)` at virtual time `now` with
value `v`: arm the timer only when none is pending; a pending timer is left
untouched (neither restarted nor its captured value replaced). -/
def timeoutReleaserConsult {T : Type} (time : Nat) (st : Option (Nat × T))
    (now : Nat) (v : T) : Option (Nat × T) :=
  match st with
  | none => some (now + time, v)
  | some s => some s

/-- Run `wait(timeoutReleaser(time))` over source emissions `(time, value)`
given in chronological order.  A pending timer due at or before the next
emission fires first (emitting its captured value downstream at its due time);
a timer still pending after the last emission fires at its due time.  The
result lists the downstream emissions `(time, value)`. -/
def runWaitTimeout {T : Type} (time : Nat) :
    List (Nat × T) → Option (Nat × T) → List (Nat × T)
  | [], none => []
  | [], some ft => [ft]
  | (now, v) :: rest, none =>
    runWaitTimeout time rest (timeoutReleaserConsult time none now v)
  | (now, v) :: rest, some (ft, d) =>
    if ft ≤ now then
      (ft, d) :: runWaitTimeout time rest (timeoutReleaserConsult time none now v)
    else
      runWaitTimeout time rest (timeoutReleaserConsult time (some (ft, d)) now v)

/-! ### `pass` / `buffer` driven by `emitterReleaser`

`emitterReleaser(R)` subscribes once to the external release emitter `R`; on
every emission of `R` it runs the stored `releaserFunction` if one is set.
Each consultation with data `d` replaces `releaserFunction` with
`() => release(d)` (the stored function is never cleared).  Events are the
source emitting a value (`src v`) and `R` emitting (`trigger`). -/

inductive GateEvent (T : Type) where
  | src (v : T)
  | trigger
deriving DecidableEq, Repr

/-- Joint closure state of `pass(emitterReleaser(R))`: the gate boolean `ok`
(initially `false`) and the releaser's stored function, modelled by the data
it would release (`none` = not yet set). -/
structure PassState (T : Type) where
  ok : Bool
  releaserFn : Option T
deriving DecidableEq, Repr

def passInit {T : Type} : PassState T := ⟨false, none⟩

/-- One event of `pass(emitterReleaser(R))`.  On a source value: if the gate
is open, forward the value downstream and close the gate; then always consult
the releaser, which stores `() => release(v)`.  On a trigger: run the stored
function if set; `pass`'s release-execution function ignores the released data
and opens the gate.  Returns the new state and the downstream emissions. -/
def passEmitterStep {T : Type} (s : PassState T) (ev : GateEvent T) :
    PassState T × List T :=
  match ev with
  | .src v =>
    let fwd := if s.ok then ([v], false) else (([] : List T), s.ok)
    (⟨fwd.2, some v⟩, fwd.1)
  | .trigger =>
    match s.releaserFn with
    | none => (s, [])
    | some _ => ({ s with ok := true }, [])

def runPassEmitter {T : Type} : List (GateEvent T) → PassState T → PassState T × List T
  | [], s => (s, [])
  | ev :: rest, s =>
    let r1 := passEmitterStep s ev
    let r2 := runPassEmitter rest r1.1
    (r2.1, r1.2 ++ r2.2)

/-- Joint closure state of `buffer(emitterReleaser(R))`: the internal
`bufferData` array and the releaser's stored function, modelled by the buffer
snapshot it captured (`none` = not yet set). -/
structure BufferState (T : Type) where
  bufferData : List T
  releaserFn : Option (List T)
deriving DecidableEq, Repr

def bufferInit {T : Type} : BufferState T := ⟨[], none⟩

/-- One event of `buffer(emitterReleaser(R))`.  On a source value: append it
to the buffer, then consult the releaser with a snapshot copy
(`bufferData.slice()`), which stores `() => release(snapshot)`.  On a trigger:
run the stored function if set; `buffer`'s release-execution function ignores
the released data, swaps in an empty buffer and emits the swapped-out buffer
downstream. -/
def bufferEmitterStep {T : Type} (s : BufferState T) (ev : GateEvent T) :
    BufferState T × List (List T) :=
  match ev with
  | .src v =>
    let buf := s.bufferData ++ [v]
    (⟨buf, some buf⟩, [])
  | .trigger =>
    match s.releaserFn with
    | none => (s, [])
    | some _ => (⟨[], s.releaserFn⟩, [s.bufferData])

def runBufferEmitter {T : Type} :
    List (GateEvent T) → BufferState T → BufferState T × List (List T)
  | [], s => (s, [])
  | ev :: rest, s =>
    let r1 := bufferEmitterStep s ev
    let r2 := runBufferEmitter rest r1.1
    (r2.1, r1.2 ++ r2.2)

/-! ### `cache` operator -/

/-- One source value of `cache(cacheSize)`: push the value onto the closure's
`cacheData`, reassign it to `cacheData.slice(-cacheSize)`, and emit that
snapshot on the child emitter.  Returns the new closure state and the emitted
snapshot. -/
def cacheStep {T : Type} (cacheSize : Nat) (st : List T) (v : T) : List T × List T :=
  let c := sliceLast cacheSize (st ++ [v])
  (c, c)

def runCache {T : Type} (cacheSize : Nat) :
    List T → List T → List T × List (List T)
  | st, [] => (st, [])
  | st, v :: rest =>
    let r1 := cacheStep cacheSize st v
    let r2 := runCache cacheSize r1.1 rest
    (r2.1, r1.2 :: r2.2)

/-! ### Helper lemmas -/

lemma sliceLast_eq_rtake {α : Type} (n : Nat) (h : n ≠ 0) (xs : List α) :
    sliceLast n xs = xs.rtake n := by
  simp [sliceLast, h, List.rtake]

lemma rtake_append_left {α : Type} (n : Nat) (xs ys : List α) :
    (xs.rtake n ++ ys).rtake n = (xs ++ ys).rtake n := by
  simp only [List.rtake_eq_reverse_take_reverse, List.reverse_append, List.reverse_reverse,
    List.take_append_eq_append_take, List.take_take]
  rw [Nat.min_eq_left (Nat.sub_le n ys.reverse.length)]

/-- Trimming again after appending to an already-trimmed list gives the same
result as trimming the full concatenation: only the last `n` elements ever
matter. -/
lemma sliceLast_append_left {α : Type} (n : Nat) (xs ys : List α) :
    sliceLast n (sliceLast n xs ++ ys) = sliceLast n (xs ++ ys) := by
  rcases Nat.eq_zero_or_pos n with h | h
  · subst h; simp [sliceLast]
  · have hne : n ≠ 0 := by omega
    rw [sliceLast_eq_rtake n hne, sliceLast_eq_rtake n hne, sliceLast_eq_rtake n hne,
      rtake_append_left]

lemma sliceLast_length_le {α : Type} (n : Nat) (h : n ≠ 0) (xs : List α) :
    (sliceLast n xs).length ≤ n := by
  simp only [sliceLast, h, if_false, List.length_drop]
  omega

lemma sliceLast_of_length_le {α : Type} {n : Nat} {xs : List α} (h : xs.length ≤ n) :
    sliceLast n xs = xs := by
  unfold sliceLast
  split
  · rfl
  · have h0 : xs.length - n = 0 := by omega
    simp [h0]

lemma updateReplayCache_subscriptions {T : Type} (e : Emitter T) :
    (Emitter.updateReplayCache e).subscriptions = e.subscriptions := by
  unfold Emitter.updateReplayCache
  split <;> rfl

lemma emit_subscriptions {T : Type} (e : Emitter T) (v : T) :
    (e.emit v).1.subscriptions = e.subscriptions := by
  simp [Emitter.emit, updateReplayCache_subscriptions]

lemma emit_deliveries {T : Type} (e : Emitter T) (v : T) :
    (e.emit v).2 = notifyPass e.subscriptions v := by
  simp [Emitter.emit, notifyPass, updateReplayCache_subscriptions]

/-- After `emitAll`, an emitter with `replayMax = M > 0` whose cache is within
bounds holds exactly the last `M` entries of cache-then-inputs; the other
fields are untouched. -/
lemma emitAll_state {T : Type} (M : Int) (hM : 0 < M) (eid : Nat)
    (subs : List Subscriber) (cache vs : List T) (hc : cache.length ≤ M.toNat) :
    ((⟨eid, subs, M, cache⟩ : Emitter T).emitAll vs).1 =
      ⟨eid, subs, M, sliceLast M.toNat (cache ++ vs)⟩ := by
  induction vs generalizing cache with
  | nil =>
    simp [Emitter.emitAll, sliceLast_of_length_le hc]
  | cons v rest ih =>
    have hM0 : M.toNat ≠ 0 := by omega
    have hemit : ((⟨eid, subs, M, cache⟩ : Emitter T).emit v).1 =
        ⟨eid, subs, M, sliceLast M.toNat (cache ++ [v])⟩ := by
      simp [Emitter.emit, Emitter.updateReplayCache, hM]
    calc ((⟨eid, subs, M, cache⟩ : Emitter T).emitAll (v :: rest)).1
        = (((⟨eid, subs, M, cache⟩ : Emitter T).emit v).1.emitAll rest).1 := rfl
      _ = ((⟨eid, subs, M, sliceLast M.toNat (cache ++ [v])⟩ : Emitter T).emitAll rest).1 := by
            rw [hemit]
      _ = ⟨eid, subs, M, sliceLast M.toNat (sliceLast M.toNat (cache ++ [v]) ++ rest)⟩ :=
            ih _ (sliceLast_length_le _ hM0 _)
      _ = ⟨eid, subs, M, sliceLast M.toNat (cache ++ (v :: rest))⟩ := by
            rw [sliceLast_append_left]
            simp

lemma runCache_length {T : Type} (n : Nat) (st vs : List T) :
    ((runCache n st vs).2).length = vs.length := by
  induction vs generalizing st with
  | nil => rfl
  | cons v rest ih => simp [runCache, ih]

/-! ### Claims -/

/-- C1: the claimed invariant `replayCache.length ≤ max(replayMax, 0)` fails
on the code.  `emit` pushes every value into `replayCache` unconditionally and
`updateReplayCache` trims only when `replayMax > 0`, so an emitter built with
the default options (`replayMax = 0`) holds `[42]` after `emit(42)`: length 1
exceeds `max(0, 0) = 0`, and the cache is not empty. -/
theorem claim1_replay_cache_not_bounded :
    ((Emitter.new 0 none (T := Int)).emit 42).1.replayMax = 0 ∧
    ((Emitter.new 0 none (T := Int)).emit 42).1.replayCache = [42] ∧
    ¬ (((Emitter.new 0 none (T := Int)).emit 42).1.replayCache.length ≤
        (max (((Emitter.new 0 none (T := Int)).emit 42).1.replayMax) 0).toNat) := by
  decide

/-- C2: with `wait(timeoutReleaser(t))`, a consultation while a timer is
pending is ignored (the pending timer is neither restarted nor its captured
value replaced), and emitting 42 at time 0 then 84 at time `tb < t` yields
exactly one downstream emission, the value 42 at time `t`. -/
theorem claim2_wait_timeout_first_value_wins (t tb : Nat) (ht : 0 < t)
    (htb : tb < t) (st : Nat × Int) (now : Nat) (v : Int) :
    timeoutReleaserConsult t (some st) now v = some st ∧
    runWaitTimeout t [(0, (42 : Int)), (tb, 84)] none = [(t, 42)] := by
  refine ⟨rfl, ?_⟩
  have h : ¬ (0 + t ≤ tb) := by omega
  simp [runWaitTimeout, timeoutReleaserConsult, h]
  omega

theorem claim2_witness :
    0 < 500 ∧ 400 < 500 ∧
    (timeoutReleaserConsult 500 (some (100, (7 : Int))) 250 9 = some (100, 7) ∧
      runWaitTimeout 500 [(0, (42 : Int)), (400, 84)] none = [(500, 42)]) :=
  ⟨by decide, by decide,
    claim2_wait_timeout_first_value_wins 500 400 (by decide) (by decide) (100, 7) 250 9⟩

/-- C3: `pass(emitterReleaser(R))` from the initial closed gate: source emits
"foo", `R` triggers, source emits "bar" — downstream receives exactly "bar"
and never "foo". -/
theorem claim3_pass_emitter_releaser :
    (runPassEmitter [GateEvent.src "foo", GateEvent.trigger, GateEvent.src "bar"]
        passInit).2 = ["bar"] ∧
    "foo" ∉ (runPassEmitter [GateEvent.src "foo", GateEvent.trigger, GateEvent.src "bar"]
        passInit).2 := by
  refine ⟨rfl, ?_⟩
  decide

/-- C4: `buffer(emitterReleaser(R))`: after source emissions 4, 8, 15, 16 the
first trigger produces exactly one downstream emission `[4,8,15,16]` and swaps
in an empty buffer; a second trigger with no intervening source emissions
emits `[]`. -/
theorem claim4_buffer_emitter_releaser :
    (runBufferEmitter [GateEvent.src (4 : Int), .src 8, .src 15, .src 16, .trigger]
        bufferInit).2 = [[4, 8, 15, 16]] ∧
    (runBufferEmitter [GateEvent.src (4 : Int), .src 8, .src 15, .src 16, .trigger]
        bufferInit).1.bufferData = [] ∧
    (runBufferEmitter [GateEvent.src (4 : Int), .src 8, .src 15, .src 16, .trigger, .trigger]
        bufferInit).2 = [[4, 8, 15, 16], []] := by
  refine ⟨by decide, by decide, by decide⟩

/-- C5: an emitter constructed with `replayMax = N ≥ 1`, after emitting
`v1..vK` with `K > N`, delivers to a newly `subscribeAndReplay`-ed callback
exactly the last `N` values, in emission order, and nothing more. -/
theorem claim5_subscribe_and_replay_last_n (N K : Nat) (vs : List Int)
    (hN : 1 ≤ N) (hK : N < K) (hlen : vs.length = K) :
    (((Emitter.new 0 (some (N : Int)) : Emitter Int).emitAll vs).1.subscribeAndReplay
        (.cb 1)).2.2 = (vs.drop (K - N)).map (fun d => (Subscriber.cb 1, d)) := by
  have hM : (0 : Int) < (N : Int) := by exact_mod_cast hN
  have hnew : (Emitter.new 0 (some (N : Int)) : Emitter Int) = ⟨0, [], (N : Int), []⟩ := by
    simp [Emitter.new, Emitter.setOptions, Emitter.updateReplayCache, sliceLast]
  have hsub : ∀ (C : List Int) (M : Int),
      (⟨0, [], M, C⟩ : Emitter Int).subscribeAndReplay (.cb 1) =
        (⟨0, [.cb 1], M, C⟩, .ok ⟨0, .cb 1⟩, C.map (fun d => (Subscriber.cb 1, d))) :=
    fun C M => rfl
  rw [hnew, emitAll_state (N : Int) hM 0 [] [] vs (by simp), hsub]
  have ht : ((N : Int)).toNat = N := by simp
  have hslice : sliceLast ((N : Int)).toNat ([] ++ vs) = vs.drop (K - N) := by
    rw [ht]
    have hne : N ≠ 0 := by omega
    simp [sliceLast, hne, hlen]
  rw [hslice]

theorem claim5_witness :
    1 ≤ 2 ∧ 2 < 3 ∧ ([7, 8, 9] : List Int).length = 3 ∧
    (((Emitter.new 0 (some ((2 : Nat) : Int)) : Emitter Int).emitAll [7, 8, 9]).1.subscribeAndReplay
        (.cb 1)).2.2 = [(Subscriber.cb 1, 8), (Subscriber.cb 1, 9)] :=
  ⟨by decide, by decide, by decide, by
    have h := claim5_subscribe_and_replay_last_n 2 3 [7, 8, 9] (by decide) (by decide) rfl
    simpa using h⟩

/-- C6 counterexample: the deliveries of `emitAll([1,2,3])` observable by
synchronous inspection immediately after the call (before any awaited
continuation runs) are not all three deliveries — the `await` in `emitAll`'s
loop suspends after the first value's notification pass. -/
theorem claim6_sync_inspection_sees_one :
    ¬ (emitAllSyncDeliveries [Subscriber.cb 0] [(1 : Int), 2, 3] =
        ((⟨0, [Subscriber.cb 0], 0, []⟩ : Emitter Int).emitAll [1, 2, 3]).2) := by
  decide

/-- C6 (amended): `emitAll([a,b,c])` delivers to direct subscribers in strict
source order — value `a`'s full notification pass, then `b`'s, then `c`'s —
with a single plain-callback subscriber receiving `a, b, c` in exactly that
order; but synchronous inspection immediately after the call observes only the
first value's pass, the rest being dispatched by awaited continuations. -/
theorem claim6_emitAll_in_order {T : Type} (e : Emitter T) (a b c : T) (i : Nat) :
    (e.emitAll [a, b, c]).2 =
      notifyPass e.subscriptions a ++ notifyPass e.subscriptions b ++
        notifyPass e.subscriptions c ∧
    ((⟨i, [Subscriber.cb 0], 0, []⟩ : Emitter T).emitAll [a, b, c]).2 =
      [(Subscriber.cb 0, a), (Subscriber.cb 0, b), (Subscriber.cb 0, c)] ∧
    emitAllSyncDeliveries e.subscriptions [a, b, c] = notifyPass e.subscriptions a := by
  refine ⟨?_, ?_, rfl⟩
  · simp [Emitter.emitAll, emit_deliveries, emit_subscriptions]
  · simp [Emitter.emitAll, emit_deliveries, emit_subscriptions, notifyPass]

/-- C7: subscribing an emitter to itself, by `subscribe` or `subscribeTo`,
raises the circular-reference error and leaves the emitter unchanged, while
subscribing any subscriber other than the emitter itself succeeds. -/
theorem claim7_self_subscription_fails {T : Type} (e : Emitter T) (x : Subscriber)
    (hx : x ≠ .em e.id) :
    e.subscribe (.em e.id) = (e, .error circularSubscribeMsg) ∧
    e.subscribeTo e = (e, .error circularSubscribeToMsg) ∧
    (e.subscribe x).2 = .ok ⟨e.id, x⟩ := by
  refine ⟨?_, ?_, ?_⟩
  · simp [Emitter.subscribe]
  · simp [Emitter.subscribeTo]
  · simp [Emitter.subscribe, hx]

theorem claim7_witness :
    (Subscriber.cb 3 ≠ Subscriber.em 5) ∧
    ((⟨5, [], 0, []⟩ : Emitter Int).subscribe (.em 5) =
        (⟨5, [], 0, []⟩, .error circularSubscribeMsg) ∧
      (⟨5, [], 0, []⟩ : Emitter Int).subscribeTo ⟨5, [], 0, []⟩ =
        (⟨5, [], 0, []⟩, .error circularSubscribeToMsg) ∧
      ((⟨5, [], 0, []⟩ : Emitter Int).subscribe (.cb 3)).2 = .ok ⟨5, .cb 3⟩) :=
  ⟨by decide, claim7_self_subscription_fails (⟨5, [], 0, []⟩ : Emitter Int) (.cb 3) (by decide)⟩

/-- C8: `cache(2)` over source values 4, 8, 15, 16 emits the sliding-window
snapshots `[4]`, `[4,8]`, `[8,15]`, `[15,16]` in that order, and the cache
operator emits on every source value (one snapshot per input, never
resetting). -/
theorem claim8_cache_sliding_window :
    (runCache 2 [] [(4 : Int), 8, 15, 16]).2 = [[4], [4, 8], [8, 15], [15, 16]] ∧
    ∀ (st vs : List Int), ((runCache 2 st vs).2).length = vs.length :=
  ⟨by decide, fun st vs => runCache_length 2 st vs⟩

/-- C9: cancelling a `Subscription` twice leaves the emitter in the same state
as cancelling it once, and cancelling after the subscriber was already removed
by other means is likewise a no-op; no error is possible (the operation is
total) and the final membership of the subscriber is identical. -/
theorem claim9_unsubscribe_idempotent {T : Type} (e : Emitter T) (x : Subscriber) :
    (Subscription.mk e.id x).unsubscribe ((Subscription.mk e.id x).unsubscribe e) =
      (Subscription.mk e.id x).unsubscribe e ∧
    (Subscription.mk e.id x).unsubscribe (e.unsubscribe x) = e.unsubscribe x ∧
    ((Subscription.mk e.id x).unsubscribe e).subscribed x = false := by
  refine ⟨?_, ?_, ?_⟩ <;>
    simp [Subscription.unsubscribe, Emitter.unsubscribe, Emitter.subscribed,
      List.filter_filter]

/-- C10: `setOptions({replayMax: m})` with `m > 0` immediately trims the
replay cache to at most the newest `m` values (oldest dropped), while
`setOptions({replayMax: 0})` leaves the cache contents unchanged. -/
theorem claim10_setOptions_replay_trim {T : Type} (e : Emitter T) (m : Int)
    (hm : 0 < m) :
    (e.setOptions (some m)).replayCache =
      e.replayCache.drop (e.replayCache.length - m.toNat) ∧
    (e.setOptions (some m)).replayCache.length ≤ m.toNat ∧
    (e.setOptions (some 0)).replayCache = e.replayCache := by
  have hne : m.toNat ≠ 0 := by omega
  refine ⟨?_, ?_, ?_⟩
  · simp [Emitter.setOptions, Emitter.updateReplayCache, hm, sliceLast, hne]
  · simp only [Emitter.setOptions, Emitter.updateReplayCache]
    simp [hm, sliceLast, hne]
    omega
  · simp [Emitter.setOptions, Emitter.updateReplayCache]

theorem claim10_witness :
    (0 : Int) < 2 ∧
    (((⟨7, [], 0, [1, 2, 3]⟩ : Emitter Int).setOptions (some 2)).replayCache = [2, 3] ∧
      ((⟨7, [], 0, [1, 2, 3]⟩ : Emitter Int).setOptions (some 2)).replayCache.length ≤ 2 ∧
      ((⟨7, [], 0, [1, 2, 3]⟩ : Emitter Int).setOptions (some 0)).replayCache = [1, 2, 3]) :=
  ⟨by decide, by
    have h := claim10_setOptions_replay_trim (⟨7, [], 0, [1, 2, 3]⟩ : Emitter Int) 2 (by decide)
    simpa using h⟩

end Synapses
